import Mathlib

/-!
Shallow embedding of `src/app/utils/fundAndUploadNestedBundle.ts`.

The repository's only first-party logic is the orchestration module
`fundAndUploadNestedBundle.ts`: it wraps each picked file in a signed
data item, builds a manifest mapping file names to item identifiers,
bundles the items together with the manifest item into one envelope and
submits the envelope through the Irys chunked uploader.

The arbundles / Irys / Arweave SDK calls (`createData`, `sign`,
`bundleAndSignData`, `generateManifest`, `createTransaction`,
`uploadTransaction`) are modelled as deterministic pure functions:
signatures and transaction identifiers become injective string encodings
of the signed content, which preserves everything the orchestration code
observes about them (identifiers of signed items, tag lists, payloads,
raw bundle bytes). JavaScript `Map` objects are modelled by association
lists with JavaScript insertion semantics: inserting an existing key
overwrites the value in place, a new key is appended at the end.
Console logging (the chunked-uploader event callbacks and the
`catch`-block log) is I/O and is not modelled. The `getIrys` helper
(not under `src/`) merely produces the SDK client; it is modelled by an
opaque `Irys` value carrying the connected wallet key.
-/

/-- A name/value tag attached to a data item or transaction
(`type Tag` in the source). -/
structure Tag where
  name : String
  value : String
deriving DecidableEq, Repr

/-- Raw bytes (a `Uint8Array`), modelled as a list of byte values. -/
abbrev Bytes := List Nat

/-- A payload passed to `createData`: the SDK accepts both raw bytes
(`new Uint8Array(await file.arrayBuffer())`) and strings
(`JSON.stringify(manifest)`). -/
inductive Payload where
  | bytes (bs : Bytes) : Payload
  | str (s : String) : Payload
deriving DecidableEq, Repr

/-- A browser `File`: name, MIME type and content bytes. -/
structure File where
  name : String
  type : String
  data : Bytes
deriving DecidableEq, Repr

/-- An `ArweaveSigner` built from a generated JWK
(`new ArweaveSigner(await Arweave.crypto.generateJWK())`); the key is
abstracted to a natural number. -/
structure ArweaveSigner where
  jwk : Nat
deriving DecidableEq, Repr

/-- An arbundles `DataItem`: payload, tags, whether it has been signed,
and its identifier (derived from the signature; `""` while unsigned,
modelling the identifier being unavailable before signing). -/
structure DataItem where
  data : Payload
  tags : List Tag
  signed : Bool
  id : String
deriving DecidableEq, Repr

/-- Textual encoding of a payload, used to model signatures. -/
def Payload.encode : Payload → String
  | .bytes bs => "bytes:" ++ String.intercalate "," (bs.map toString)
  | .str s => "str:" ++ s

/-- Textual encoding of a tag list, used to model signatures. -/
def encodeTags (tags : List Tag) : String :=
  String.intercalate ";" (tags.map (fun t => t.name ++ "=" ++ t.value))

/-- Model of the identifier a signer assigns to a data item: a
deterministic injective encoding of the signing key and the signed
content (in arbundles the id is the hash of the signature). -/
def itemSigId (s : ArweaveSigner) (p : Payload) (tags : List Tag) : String :=
  "item-" ++ toString s.jwk ++ "-" ++ p.encode ++ "-" ++ encodeTags tags

/-- `createData(data, signer, { tags })`: builds an unsigned data item. -/
def createData (p : Payload) (tags : List Tag) : DataItem :=
  { data := p, tags := tags, signed := false, id := "" }

/-- `item.sign(signer)`: marks the item signed and assigns its id. -/
def DataItem.sign (item : DataItem) (s : ArweaveSigner) : DataItem :=
  { item with signed := true, id := itemSigId s item.data item.tags }

/-! ### JavaScript `Map` model -/

/-- A JavaScript `Map`, modelled as an insertion-ordered association
list whose keys are pairwise distinct. -/
abbrev JsMap (α β : Type) := List (α × β)

/-- `map.set(k, v)` semantics of the JavaScript `Map` constructor: an
existing key keeps its position and gets the new value, a new key is
appended at the end. -/
def jsInsert [DecidableEq α] (m : JsMap α β) (k : α) (v : β) : JsMap α β :=
  if m.any (fun p => p.1 = k) then
    m.map (fun p => if p.1 = k then (k, v) else p)
  else
    m ++ [(k, v)]

/-- `new Map(list)`: inserts the entries of `list` left to right. -/
def jsMapOfList [DecidableEq α] (l : List (α × β)) : JsMap α β :=
  l.foldl (fun m p => jsInsert m p.1 p.2) []

/-- The keys of the map in insertion order (`[...map.keys()]`). -/
def jsKeys (m : JsMap α β) : List α :=
  m.map Prod.fst

/-- The values of the map in insertion order (`[...map.values()]`). -/
def jsValues (m : JsMap α β) : List β :=
  m.map Prod.snd

/-- `map.get(k)`. -/
def jsLookup [DecidableEq α] (m : JsMap α β) (k : α) : Option β :=
  (m.find? (fun p => p.1 = k)).map Prod.snd

/-- The last entry of `l` with key `k`, if any. -/
def lastEntry [DecidableEq α] (l : List (α × β)) (k : α) : Option (α × β) :=
  l.reverse.find? (fun p => p.1 = k)

/-! ### Irys / Arweave SDK model -/

/-- The connected Irys SDK client returned by `getIrys()`; only the
wallet key it signs transactions with is relevant to the model. -/
structure Irys where
  key : Nat
deriving DecidableEq, Repr

/-- An Arweave path manifest as produced by
`irys.uploader.generateManifest({ items })`. -/
structure Manifest where
  manifest : String
  version : String
  paths : JsMap String String
deriving DecidableEq, Repr

/-- `irys.uploader.generateManifest({ items: pathMap })`: wraps the path
map in the standard `arweave/paths` manifest envelope. -/
def generateManifest (items : JsMap String String) : Manifest :=
  { manifest := "arweave/paths", version := "0.1.0", paths := items }

/-- `JSON.stringify(manifest)`. -/
def Manifest.stringify (m : Manifest) : String :=
  "\x7b\"manifest\":\"" ++ m.manifest ++ "\",\"version\":\"" ++ m.version ++
    "\",\"paths\":\x7b" ++
    String.intercalate ","
      (m.paths.map (fun p => "\"" ++ p.1 ++ "\":\x7b\"id\":\"" ++ p.2 ++ "\"\x7d")) ++
    "\x7d\x7d"

/-- An Irys transaction. -/
structure Transaction where
  data : String
  tags : List Tag
  signed : Bool
  txId : String
deriving DecidableEq, Repr

/-- `irys.createTransaction(data, { tags })`: an unsigned transaction. -/
def createTransaction (data : String) (tags : List Tag) : Transaction :=
  { data := data, tags := tags, signed := false, txId := "" }

/-- `tx.sign()`: signs the transaction with the connected wallet and
assigns its id. -/
def Transaction.sign (t : Transaction) (irys : Irys) : Transaction :=
  { t with signed := true, txId := "tx-" ++ toString irys.key ++ "-" ++ t.data }

/-- The `data` field of the chunked uploader's response. -/
structure UploadResponseData where
  id : String
deriving DecidableEq, Repr

/-- The receipt returned by `uploader.uploadTransaction(tx)`. -/
structure Receipt where
  data : UploadResponseData
deriving DecidableEq, Repr

/-- `uploader.uploadTransaction(tx)`: the chunked uploader posts the
transaction and the receipt reports the posted transaction's id. -/
def uploadTransaction (tx : Transaction) : Receipt :=
  { data := { id := tx.txId } }

/-- An arbundles `Bundle`: the ordered data items it contains. -/
structure Bundle where
  items : List DataItem
deriving DecidableEq, Repr

/-- Textual encoding of a data item inside the raw bundle bytes. -/
def DataItem.encode (i : DataItem) : String :=
  i.id ++ "#" ++ i.data.encode ++ "#" ++ encodeTags i.tags ++ "#" ++
    (if i.signed then "signed" else "unsigned")

/-- `bundle.getRaw()`: the raw binary serialization of the bundle,
modelled as an injective textual encoding of its items. -/
def Bundle.getRaw (b : Bundle) : String :=
  "bundle:" ++ String.intercalate "&" (b.items.map DataItem.encode)

/-- arbundles `bundleAndSignData` signs each item that is not yet
signed and leaves already-signed items untouched. -/
def signIfUnsigned (s : ArweaveSigner) (i : DataItem) : DataItem :=
  if i.signed then i else i.sign s

/-- `bundleAndSignData(items, signer)`: signs the unsigned items with
`signer` and assembles them, in order, into one bundle. -/
def bundleAndSignData (items : List DataItem) (s : ArweaveSigner) : Bundle :=
  { items := items.map (signIfUnsigned s) }

/-! ### The orchestration (`fundAndUploadNestedBundle.ts`) -/

/-- `prepareFile(file, ephemeralSigner)`: creates a data item whose
payload is the file's bytes, tagged with the file's MIME type, and
signs it with the ephemeral signer. -/
def prepareFile (file : File) (ephemeralSigner : ArweaveSigner) : DataItem :=
  (createData (.bytes file.data) [{ name := "Content-Type", value := file.type }]).sign
    ephemeralSigner

/-- `prepareFiles(files, ephemeralSigner)`: prepares every file and
collects the results into a `Map` keyed by file name. -/
def prepareFiles (files : List File) (ephemeralSigner : ArweaveSigner) :
    JsMap String DataItem :=
  jsMapOfList (files.map (fun file => (file.name, prepareFile file ephemeralSigner)))

/-- The path map of `bundleItems`:
`new Map([...itemMap].map(([path, item]) => [path, item.id]))`. -/
def pathMapOf (itemMap : JsMap String DataItem) : JsMap String String :=
  jsMapOfList (itemMap.map (fun p => (p.1, p.2.id)))

/-- The manifest data item created inside `bundleItems`: the manifest
over the path map, serialized and wrapped in an (unsigned) data item
with the two manifest tags. -/
def manifestItemOf (itemMap : JsMap String DataItem) : DataItem :=
  createData (.str (generateManifest (pathMapOf itemMap)).stringify)
    [{ name := "Type", value := "manifest" },
     { name := "Content-Type", value := "application/x.arweave-manifest+json" }]

/-- `bundleItems(itemMap, ephemeralSigner)`: builds the manifest item
and bundles the map's values together with it. -/
def bundleItems (itemMap : JsMap String DataItem) (ephemeralSigner : ArweaveSigner) :
    Bundle :=
  bundleAndSignData (jsValues itemMap ++ [manifestItemOf itemMap]) ephemeralSigner

/-- The transaction `uploadBundle` submits: the bundle's raw bytes,
tagged as a binary version 2.0.0 bundle, signed with the connected
wallet before upload (`irys.createTransaction(...)` then `tx.sign()`). -/
def uploadTx (irys : Irys) (bundle : Bundle) : Transaction :=
  (createTransaction bundle.getRaw
      [{ name := "Bundle-Format", value := "binary" },
       { name := "Bundle-Version", value := "2.0.0" }]).sign irys

/-- `uploadBundle(bundle)`: signs and submits the wrapping transaction
through the chunked uploader and returns
`[bundle.items[bundle.items.length - 1].id, receipt.data.id]`. The
indexing throws a `TypeError` when the bundle has no items (then
`bundle.items[-1]` is `undefined`), modelled by the `Except` error. -/
def uploadBundle (irys : Irys) (bundle : Bundle) : Except String (String × String) :=
  let tx := uploadTx irys bundle
  let receipt := uploadTransaction tx
  match bundle.items.getLast? with
  | some manifestItem => .ok (manifestItem.id, receipt.data.id)
  | none => .error "TypeError: cannot read properties of undefined"

/-- The `try`-block of `fundAndUploadNestedBundle`, with the four
awaited steps (key generation, file preparation, bundling, upload) as
parameters so that any of them may throw. -/
def fundAndUploadNestedBundleRun (generateJWK : Except String Nat)
    (prepareFilesE : List File → ArweaveSigner → Except String (JsMap String DataItem))
    (bundleItemsE : JsMap String DataItem → ArweaveSigner → Except String Bundle)
    (uploadBundleE : Bundle → Except String (String × String))
    (files : List File) : Except String (List String) := do
  let jwk ← generateJWK
  let ephemeralSigner : ArweaveSigner := { jwk := jwk }
  let preppedFiles ← prepareFilesE files ephemeralSigner
  let bundle ← bundleItemsE preppedFiles ephemeralSigner
  let (manifestId, receiptId) ← uploadBundleE bundle
  pure [manifestId, receiptId]

/-- `fundAndUploadNestedBundle` over parameterised steps: the `try`
block's value is returned on success; a thrown error is caught at the
top level (and logged to the console, not modelled) and `["", ""]` is
returned. -/
def fundAndUploadNestedBundleGen (generateJWK : Except String Nat)
    (prepareFilesE : List File → ArweaveSigner → Except String (JsMap String DataItem))
    (bundleItemsE : JsMap String DataItem → ArweaveSigner → Except String Bundle)
    (uploadBundleE : Bundle → Except String (String × String))
    (files : List File) : List String :=
  match fundAndUploadNestedBundleRun generateJWK prepareFilesE bundleItemsE
      uploadBundleE files with
  | .ok result => result
  | .error _ => ["", ""]

/-- `fundAndUploadNestedBundle(files)` with the deterministic SDK
model: the generated JWK and the connected Irys client are parameters,
and the four steps are the deterministic functions above. -/
def fundAndUploadNestedBundle (irys : Irys) (jwk : Nat) (files : List File) :
    List String :=
  fundAndUploadNestedBundleGen (.ok jwk)
    (fun fs s => .ok (prepareFiles fs s))
    (fun m s => .ok (bundleItems m s))
    (uploadBundle irys) files

/-! ### Concrete sample inputs (used by witnesses and counterexamples) -/

/-- A sample connected Irys client. -/
def demoIrys : Irys := { key := 3 }

/-- A sample ephemeral signer. -/
def demoSigner : ArweaveSigner := { jwk := 7 }

/-- A sample text file. -/
def demoFileA : File := { name := "a.txt", type := "text/plain", data := [104, 105] }

/-- A sample HTML file with a different name. -/
def demoFileB : File := { name := "b.txt", type := "text/html", data := [60] }

/-- A second file whose name collides with `demoFileA` but whose content
differs. -/
def demoFileA2 : File := { name := "a.txt", type := "text/plain", data := [33] }

/-- The prepared item map for the two distinct-named sample files. -/
def demoItemMap : JsMap String DataItem := prepareFiles [demoFileA, demoFileB] demoSigner

/-! ### Lemmas about the JavaScript `Map` model -/

theorem jsInsert_cond [DecidableEq α] (m : JsMap α β) (k : α) :
    (m.any fun p => decide (p.1 = k)) = true ↔ k ∈ jsKeys m := by
  simp [jsKeys, List.any_eq_true, List.mem_map]

theorem jsInsert_of_mem [DecidableEq α] {m : JsMap α β} {k : α} (v : β)
    (h : k ∈ jsKeys m) :
    jsInsert m k v = m.map (fun p => if p.1 = k then (k, v) else p) := by
  unfold jsInsert
  rw [if_pos ((jsInsert_cond m k).mpr h)]

theorem jsInsert_of_not_mem [DecidableEq α] {m : JsMap α β} {k : α} (v : β)
    (h : k ∉ jsKeys m) :
    jsInsert m k v = m ++ [(k, v)] := by
  unfold jsInsert
  rw [if_neg (fun hc => h ((jsInsert_cond m k).mp hc))]

theorem jsKeys_map_replace [DecidableEq α] (m : JsMap α β) (k : α) (v : β) :
    jsKeys (m.map (fun p => if p.1 = k then (k, v) else p)) = jsKeys m := by
  unfold jsKeys
  rw [List.map_map]
  have hf : (Prod.fst ∘ fun p : α × β => if p.1 = k then (k, v) else p) = Prod.fst := by
    funext p
    by_cases h : p.1 = k <;> simp [h]
  rw [hf]

theorem jsKeys_jsInsert [DecidableEq α] (m : JsMap α β) (k : α) (v : β) :
    jsKeys (jsInsert m k v) = if k ∈ jsKeys m then jsKeys m else jsKeys m ++ [k] := by
  by_cases h : k ∈ jsKeys m
  · rw [jsInsert_of_mem v h, jsKeys_map_replace, if_pos h]
  · rw [jsInsert_of_not_mem v h, if_neg h]
    unfold jsKeys
    rw [List.map_append]
    rfl

theorem nodup_jsKeys_jsInsert [DecidableEq α] {m : JsMap α β} (k : α) (v : β)
    (h : (jsKeys m).Nodup) : (jsKeys (jsInsert m k v)).Nodup := by
  rw [jsKeys_jsInsert]
  split
  · exact h
  · next hk => exact h.append (List.nodup_singleton k) (by simpa using hk)

theorem toFinset_jsKeys_jsInsert [DecidableEq α] (m : JsMap α β) (k : α) (v : β) :
    (jsKeys (jsInsert m k v)).toFinset = insert k (jsKeys m).toFinset := by
  rw [jsKeys_jsInsert]
  split
  · next h => rw [Finset.insert_eq_self.mpr (List.mem_toFinset.mpr h)]
  · next h =>
    ext a
    simp [or_comm]

theorem length_jsKeys (m : JsMap α β) : (jsKeys m).length = m.length :=
  List.length_map m Prod.fst

theorem jsKeys_fold_nodup [DecidableEq α] (l : List (α × β)) :
    ∀ m : JsMap α β, (jsKeys m).Nodup →
      (jsKeys (l.foldl (fun m p => jsInsert m p.1 p.2) m)).Nodup := by
  induction l with
  | nil => intro m h; simpa using h
  | cons p l ih =>
    intro m h
    rw [List.foldl_cons]
    exact ih _ (nodup_jsKeys_jsInsert p.1 p.2 h)

theorem toFinset_jsKeys_fold [DecidableEq α] (l : List (α × β)) :
    ∀ m : JsMap α β, (jsKeys (l.foldl (fun m p => jsInsert m p.1 p.2) m)).toFinset
      = (jsKeys m).toFinset ∪ (l.map Prod.fst).toFinset := by
  induction l with
  | nil => intro m; simp
  | cons p l ih =>
    intro m
    rw [List.foldl_cons, ih, toFinset_jsKeys_jsInsert]
    ext a
    simp


theorem nodup_jsKeys_jsMapOfList [DecidableEq α] (l : List (α × β)) :
    (jsKeys (jsMapOfList l)).Nodup :=
  jsKeys_fold_nodup l [] (by simp [jsKeys])

theorem length_jsMapOfList [DecidableEq α] (l : List (α × β)) :
    (jsMapOfList l).length = (l.map Prod.fst).toFinset.card := by
  have hn : (jsKeys (jsMapOfList l)).Nodup := nodup_jsKeys_jsMapOfList l
  have hf := toFinset_jsKeys_fold l []
  rw [← length_jsKeys, ← List.toFinset_card_of_nodup hn]
  unfold jsMapOfList
  rw [hf]
  simp [jsKeys]

theorem toFinset_card_lt_of_not_nodup [DecidableEq α] :
    ∀ {l : List α}, ¬ l.Nodup → l.toFinset.card < l.length := by
  intro l
  induction l with
  | nil => intro h; exact absurd List.nodup_nil h
  | cons a t ih =>
    intro h
    by_cases ha : a ∈ t
    · calc (a :: t).toFinset.card = t.toFinset.card := by
            rw [List.toFinset_cons, Finset.insert_eq_self.mpr (List.mem_toFinset.mpr ha)]
        _ ≤ t.length := @List.toFinset_card_le α _ t
        _ < (a :: t).length := Nat.lt_succ_self t.length
    · have ht : ¬ t.Nodup := fun hn => h (List.nodup_cons.mpr ⟨ha, hn⟩)
      calc (a :: t).toFinset.card ≤ t.toFinset.card + 1 := by
            rw [List.toFinset_cons]
            exact Finset.card_insert_le a t.toFinset
        _ < t.length + 1 := Nat.succ_lt_succ (ih ht)
        _ = (a :: t).length := rfl

theorem jsLookup_nil [DecidableEq α] (k : α) : jsLookup ([] : JsMap α β) k = none :=
  rfl

theorem find?_replace_self [DecidableEq α] {m : JsMap α β} {k : α} (v : β)
    (h : k ∈ jsKeys m) :
    (m.map (fun p => if p.1 = k then (k, v) else p)).find? (fun p => p.1 = k)
      = some (k, v) := by
  induction m with
  | nil => simp [jsKeys] at h
  | cons q m ih =>
    by_cases hq : q.1 = k
    · rw [List.map_cons, if_pos hq]
      exact List.find?_cons_of_pos _ (by simp)
    · rw [List.map_cons, if_neg hq, List.find?_cons_of_neg _ (by simp [hq])]
      apply ih
      have : k = q.1 ∨ k ∈ jsKeys m := by simpa [jsKeys] using h
      rcases this with h' | h'
      · exact absurd h'.symm hq
      · exact h'

theorem find?_replace_other [DecidableEq α] {m : JsMap α β} {k k' : α} (v : β)
    (hne : k' ≠ k) :
    (m.map (fun p => if p.1 = k then (k, v) else p)).find? (fun p => p.1 = k')
      = m.find? (fun p => p.1 = k') := by
  induction m with
  | nil => rfl
  | cons q m ih =>
    rw [List.map_cons]
    by_cases hq : q.1 = k
    · rw [if_pos hq,
        List.find?_cons_of_neg _ (by simp [Ne.symm hne]),
        List.find?_cons_of_neg _ (by simp [hq]; exact fun hc => hne hc.symm)]
      exact ih
    · rw [if_neg hq]
      by_cases hq' : q.1 = k'
      · rw [List.find?_cons_of_pos _ (by simp [hq']),
          List.find?_cons_of_pos _ (by simp [hq'])]
      · rw [List.find?_cons_of_neg _ (by simp [hq']),
          List.find?_cons_of_neg _ (by simp [hq'])]
        exact ih

theorem jsLookup_jsInsert_self [DecidableEq α] (m : JsMap α β) (k : α) (v : β) :
    jsLookup (jsInsert m k v) k = some v := by
  by_cases h : k ∈ jsKeys m
  · rw [jsInsert_of_mem v h]
    unfold jsLookup
    rw [find?_replace_self v h]
    rfl
  · rw [jsInsert_of_not_mem v h]
    unfold jsLookup
    rw [List.find?_append]
    have hnone : m.find? (fun p => decide (p.1 = k)) = none := by
      apply List.find?_eq_none.mpr
      intro p hp hpk
      apply h
      have hk : p.1 = k := by simpa using hpk
      exact hk ▸ List.mem_map_of_mem Prod.fst hp
    rw [hnone]
    simp [List.find?_cons_of_pos]

theorem jsLookup_jsInsert_other [DecidableEq α] (m : JsMap α β) (k k' : α) (v : β)
    (hne : k' ≠ k) :
    jsLookup (jsInsert m k v) k' = jsLookup m k' := by
  by_cases h : k ∈ jsKeys m
  · rw [jsInsert_of_mem v h]
    unfold jsLookup
    rw [find?_replace_other v hne]
  · rw [jsInsert_of_not_mem v h]
    unfold jsLookup
    rw [List.find?_append]
    have hsingle : List.find? (fun p => decide (p.1 = k')) [(k, v)] = none := by
      rw [List.find?_cons_of_neg _ (by simp [Ne.symm hne])]
      rfl
    rw [hsingle, Option.or_none]

theorem jsLookup_foldl [DecidableEq α] (l : List (α × β)) :
    ∀ (m : JsMap α β) (k : α),
      jsLookup (l.foldl (fun m p => jsInsert m p.1 p.2) m) k
        = ((lastEntry l k).map Prod.snd).or (jsLookup m k) := by
  induction l with
  | nil =>
    intro m k
    simp [lastEntry]
  | cons p l ih =>
    intro m k
    rw [List.foldl_cons, ih]
    have hsplit : lastEntry (p :: l) k
        = (lastEntry l k).or (List.find? (fun q => decide (q.1 = k)) [p]) := by
      unfold lastEntry
      rw [List.reverse_cons, List.find?_append]
    rw [hsplit]
    cases he : lastEntry l k with
    | some q => simp
    | none =>
      by_cases hk : p.1 = k
      · have hp : List.find? (fun q => decide (q.1 = k)) [p] = some p :=
          List.find?_cons_of_pos _ (by simp [hk])
        rw [hp]
        subst hk
        simp [jsLookup_jsInsert_self]
      · have hp : List.find? (fun q => decide (q.1 = k)) [p] = none := by
          rw [List.find?_cons_of_neg _ (by simp [hk])]
          rfl
        rw [hp]
        simp [jsLookup_jsInsert_other m p.1 k p.2 (Ne.symm hk)]

theorem jsLookup_jsMapOfList [DecidableEq α] (l : List (α × β)) (k : α) :
    jsLookup (jsMapOfList l) k = (lastEntry l k).map Prod.snd := by
  unfold jsMapOfList
  rw [jsLookup_foldl, jsLookup_nil, Option.or_none]

theorem foldl_jsInsert_append [DecidableEq α] (l : List (α × β)) :
    ∀ m : JsMap α β, (jsKeys m ++ jsKeys l).Nodup →
      l.foldl (fun m p => jsInsert m p.1 p.2) m = m ++ l := by
  induction l with
  | nil => intro m _; simp
  | cons p l ih =>
    intro m h
    have hk : p.1 ∉ jsKeys m := by
      rw [List.nodup_append] at h
      exact fun hmem => h.2.2 hmem (by simp [jsKeys])
    rw [List.foldl_cons, jsInsert_of_not_mem p.2 hk]
    have h' : (jsKeys (m ++ [p]) ++ jsKeys l).Nodup := by
      unfold jsKeys at h ⊢
      simpa [List.map_append, List.append_assoc] using h
    rw [ih (m ++ [p]) h', List.append_assoc]
    rfl

theorem jsMapOfList_of_nodup [DecidableEq α] {l : List (α × β)}
    (h : (l.map Prod.fst).Nodup) : jsMapOfList l = l := by
  unfold jsMapOfList
  have hres := foldl_jsInsert_append l [] (by simpa [jsKeys] using h)
  simpa using hres

/-! ### Lemmas about the orchestration -/

theorem nodup_jsKeys_prepareFiles (files : List File) (s : ArweaveSigner) :
    (jsKeys (prepareFiles files s)).Nodup :=
  nodup_jsKeys_jsMapOfList _

theorem jsLookup_prepareFiles (files : List File) (s : ArweaveSigner) (name : String) :
    jsLookup (prepareFiles files s) name
      = (files.reverse.find? (fun f => f.name = name)).map (fun f => prepareFile f s) := by
  unfold prepareFiles
  rw [jsLookup_jsMapOfList]
  unfold lastEntry
  rw [← List.map_reverse, List.find?_map, Option.map_map]
  rfl

theorem pathMapOf_of_nodup {itemMap : JsMap String DataItem}
    (h : (jsKeys itemMap).Nodup) :
    pathMapOf itemMap = itemMap.map (fun p => (p.1, p.2.id)) := by
  unfold pathMapOf
  apply jsMapOfList_of_nodup
  have hkeys : (itemMap.map (fun p => (p.1, p.2.id))).map Prod.fst = jsKeys itemMap := by
    rw [List.map_map]
    rfl
  rw [hkeys]
  exact h

theorem jsLookup_map_id (itemMap : JsMap String DataItem) (name : String) :
    jsLookup (itemMap.map (fun p => (p.1, p.2.id))) name
      = (jsLookup itemMap name).map DataItem.id := by
  unfold jsLookup
  rw [List.find?_map, Option.map_map, Option.map_map]
  rfl

theorem bundleItems_items (itemMap : JsMap String DataItem) (s : ArweaveSigner) :
    (bundleItems itemMap s).items
      = (jsValues itemMap).map (signIfUnsigned s) ++ [(manifestItemOf itemMap).sign s] := by
  show (jsValues itemMap ++ [manifestItemOf itemMap]).map (signIfUnsigned s) = _
  rw [List.map_append]
  rfl

theorem uploadBundle_bundleItems (irys : Irys) (itemMap : JsMap String DataItem)
    (s : ArweaveSigner) :
    uploadBundle irys (bundleItems itemMap s)
      = .ok (((manifestItemOf itemMap).sign s).id,
          (uploadTransaction (uploadTx irys (bundleItems itemMap s))).data.id) := by
  simp only [uploadBundle]
  rw [bundleItems_items, List.getLast?_concat]

theorem fundAndUploadNestedBundle_eq (irys : Irys) (jwk : Nat) (files : List File) :
    fundAndUploadNestedBundle irys jwk files
      = [((manifestItemOf (prepareFiles files { jwk := jwk })).sign { jwk := jwk }).id,
         (uploadTransaction (uploadTx irys
             (bundleItems (prepareFiles files { jwk := jwk }) { jwk := jwk }))).data.id] := by
  unfold fundAndUploadNestedBundle fundAndUploadNestedBundleGen fundAndUploadNestedBundleRun
  simp only [bind, Except.bind, pure, Except.pure]
  rw [uploadBundle_bundleItems]

theorem map_signIfUnsigned_of_signed (s : ArweaveSigner) :
    ∀ l : List DataItem, (∀ i ∈ l, i.signed = true) → l.map (signIfUnsigned s) = l := by
  intro l hl
  induction l with
  | nil => rfl
  | cons a t ih =>
    rw [List.map_cons, ih (fun i hi => hl i (List.mem_cons_of_mem a hi))]
    have ha : signIfUnsigned s a = a := by
      simp [signIfUnsigned, hl a (List.mem_cons_self a t)]
    rw [ha]

/-! ### The claims -/

/-- C1: for every list of input files, `fundAndUploadNestedBundle`
returns an array of exactly two string identifiers, in order: the
identifier of the (signed) manifest data item of the bundle it built,
then the identifier reported by the chunked uploader's receipt for the
submitted transaction. -/
theorem fundAndUploadNestedBundle_returns_manifest_and_receipt_ids
    (irys : Irys) (jwk : Nat) (files : List File) :
    (fundAndUploadNestedBundle irys jwk files).length = 2 ∧
    fundAndUploadNestedBundle irys jwk files
      = [((manifestItemOf (prepareFiles files { jwk := jwk })).sign { jwk := jwk }).id,
         (uploadTransaction (uploadTx irys
             (bundleItems (prepareFiles files { jwk := jwk }) { jwk := jwk }))).data.id] := by
  constructor
  · rw [fundAndUploadNestedBundle_eq]
    rfl
  · exact fundAndUploadNestedBundle_eq irys jwk files

/-- C2: if any of the orchestration steps (key generation, file
preparation, bundling, upload) throws, `fundAndUploadNestedBundle`
catches the error at the top level and returns `["", ""]` instead of
propagating the exception (the `catch` block also logs the error to the
console, which is I/O outside this model). -/
theorem fundAndUploadNestedBundle_catches_errors
    (generateJWK : Except String Nat)
    (prepareFilesE : List File → ArweaveSigner → Except String (JsMap String DataItem))
    (bundleItemsE : JsMap String DataItem → ArweaveSigner → Except String Bundle)
    (uploadBundleE : Bundle → Except String (String × String))
    (files : List File) (e : String)
    (h : fundAndUploadNestedBundleRun generateJWK prepareFilesE bundleItemsE
        uploadBundleE files = .error e) :
    fundAndUploadNestedBundleGen generateJWK prepareFilesE bundleItemsE
      uploadBundleE files = ["", ""] := by
  unfold fundAndUploadNestedBundleGen
  rw [h]

/-- Witness for C2: with a throwing key-generation step the
orchestration returns `["", ""]`. -/
theorem fundAndUploadNestedBundle_catches_errors_witness :
    fundAndUploadNestedBundleGen (.error "key generation failed")
      (fun fs s => .ok (prepareFiles fs s))
      (fun m s => .ok (bundleItems m s))
      (uploadBundle demoIrys) [demoFileA] = ["", ""] :=
  fundAndUploadNestedBundle_catches_errors _ _ _ _ [demoFileA]
    "key generation failed" rfl

/-- C7: for every item map, the manifest data item is the last item of
the bundle produced by `bundleItems`, so the first identifier returned
by `uploadBundle` (`bundle.items[bundle.items.length - 1].id`) is the
manifest item's identifier. -/
theorem bundleItems_last_item_is_manifest (irys : Irys)
    (itemMap : JsMap String DataItem) (s : ArweaveSigner) :
    (bundleItems itemMap s).items.getLast? = some ((manifestItemOf itemMap).sign s) ∧
    uploadBundle irys (bundleItems itemMap s)
      = .ok (((manifestItemOf itemMap).sign s).id,
          (uploadTransaction (uploadTx irys (bundleItems itemMap s))).data.id) := by
  constructor
  · rw [bundleItems_items]
    exact List.getLast?_concat _
  · exact uploadBundle_bundleItems irys itemMap s

/-- C9: for the empty input file list the orchestration still succeeds:
the prepared map is empty, the bundle contains exactly one item (the
signed manifest item over the empty path map), the last-index access is
in range, and two identifiers are still returned. -/
theorem fundAndUploadNestedBundle_empty_input (irys : Irys) (jwk : Nat) :
    prepareFiles [] { jwk := jwk } = [] ∧
    (bundleItems (prepareFiles [] { jwk := jwk }) { jwk := jwk }).items
      = [(manifestItemOf []).sign { jwk := jwk }] ∧
    (bundleItems (prepareFiles [] { jwk := jwk }) { jwk := jwk }).items.length = 1 ∧
    ((bundleItems (prepareFiles [] { jwk := jwk }) { jwk := jwk }).items.getLast?).isSome
      = true ∧
    fundAndUploadNestedBundle irys jwk []
      = [((manifestItemOf (prepareFiles [] { jwk := jwk })).sign { jwk := jwk }).id,
         (uploadTransaction (uploadTx irys
             (bundleItems (prepareFiles [] { jwk := jwk }) { jwk := jwk }))).data.id] ∧
    (fundAndUploadNestedBundle irys jwk []).length = 2 := by
  refine ⟨rfl, rfl, rfl, rfl, fundAndUploadNestedBundle_eq irys jwk [], ?_⟩
  rw [fundAndUploadNestedBundle_eq]
  rfl

/-- C3: for every map of prepared (already signed) data items,
`bundleItems` produces a single bundle whose items are exactly the
per-file data items, in map order, followed by the manifest data item
signed with the ephemeral signer — nothing is dropped and nothing else
is added, and every item of the bundle is signed. -/
theorem bundleItems_items_exact (itemMap : JsMap String DataItem) (s : ArweaveSigner)
    (h : ∀ i ∈ jsValues itemMap, i.signed = true) :
    (bundleItems itemMap s).items = jsValues itemMap ++ [(manifestItemOf itemMap).sign s] ∧
    ∀ i ∈ (bundleItems itemMap s).items, i.signed = true := by
  have hmap : (jsValues itemMap).map (signIfUnsigned s) = jsValues itemMap :=
    map_signIfUnsigned_of_signed s (jsValues itemMap) h
  constructor
  · rw [bundleItems_items, hmap]
  · intro i hi
    rw [bundleItems_items, hmap] at hi
    rcases List.mem_append.mp hi with hv | hm
    · exact h i hv
    · rw [List.mem_singleton.mp hm]
      rfl

/-- Witness for C3: the prepared map of the two sample files is bundled
into exactly its two items plus the signed manifest item. -/
theorem bundleItems_items_exact_witness :
    (bundleItems demoItemMap demoSigner).items
      = jsValues demoItemMap ++ [(manifestItemOf demoItemMap).sign demoSigner] ∧
    ∀ i ∈ (bundleItems demoItemMap demoSigner).items, i.signed = true :=
  bundleItems_items_exact demoItemMap demoSigner (by decide)

/-- C4: for every map of prepared data items (a JavaScript `Map`, so
with pairwise-distinct keys), the manifest built by `bundleItems` maps
each key of the item map to the identifier of that entry's data item
and contains no other entries; the manifest data item carries exactly
its serialization. -/
theorem bundleItems_manifest_paths (itemMap : JsMap String DataItem)
    (h : (jsKeys itemMap).Nodup) :
    (generateManifest (pathMapOf itemMap)).paths
      = itemMap.map (fun p => (p.1, p.2.id)) ∧
    (manifestItemOf itemMap).data
      = .str (generateManifest (pathMapOf itemMap)).stringify := by
  exact ⟨pathMapOf_of_nodup h, rfl⟩

/-- Witness for C4: the manifest over the two sample files maps their
two names to their item identifiers and nothing else. -/
theorem bundleItems_manifest_paths_witness :
    (generateManifest (pathMapOf demoItemMap)).paths
      = demoItemMap.map (fun p => (p.1, p.2.id)) ∧
    (manifestItemOf demoItemMap).data
      = .str (generateManifest (pathMapOf demoItemMap)).stringify :=
  bundleItems_manifest_paths demoItemMap (by decide)

/-- C6: for every bundle, the transaction `uploadBundle` submits
carries the bundle's raw bytes as data, exactly the tags
`Bundle-Format = "binary"` and `Bundle-Version = "2.0.0"`, and is
signed before being handed to the chunked uploader; the second returned
identifier is the id of the uploader's receipt for that transaction. -/
theorem uploadBundle_transaction_spec (irys : Irys) (b : Bundle) :
    (uploadTx irys b).data = b.getRaw ∧
    (uploadTx irys b).tags = [{ name := "Bundle-Format", value := "binary" },
                              { name := "Bundle-Version", value := "2.0.0" }] ∧
    (uploadTx irys b).signed = true ∧
    ∀ mId rId, uploadBundle irys b = .ok (mId, rId)
      → rId = (uploadTransaction (uploadTx irys b)).data.id := by
  refine ⟨rfl, rfl, rfl, ?_⟩
  intro mId rId h
  simp only [uploadBundle] at h
  cases hl : b.items.getLast? with
  | some it =>
    rw [hl] at h
    injection h with h'
    injection h' with ha hb
    exact hb.symm
  | none =>
    rw [hl] at h
    exact absurd h (by simp)

/-- Witness for C6: applied to the bundle of the two sample files,
whose upload succeeds. -/
theorem uploadBundle_transaction_spec_witness :
    (uploadTransaction (uploadTx demoIrys (bundleItems demoItemMap demoSigner))).data.id
      = (uploadTransaction (uploadTx demoIrys (bundleItems demoItemMap demoSigner))).data.id :=
  (uploadBundle_transaction_spec demoIrys (bundleItems demoItemMap demoSigner)).2.2.2
    ((manifestItemOf demoItemMap).sign demoSigner).id
    ((uploadTransaction (uploadTx demoIrys (bundleItems demoItemMap demoSigner))).data.id)
    (uploadBundle_bundleItems demoIrys demoItemMap demoSigner)

/-- Counterexample to C5: with two input files that share the name
`"a.txt"` but have different contents, the map built by `prepareFiles`
does not associate the first file's data item with its name — it holds
the second file's item instead. -/
theorem prepareFiles_first_duplicate_not_associated :
    jsLookup (prepareFiles [demoFileA, demoFileA2] demoSigner) demoFileA.name
        ≠ some (prepareFile demoFileA demoSigner) ∧
    jsLookup (prepareFiles [demoFileA, demoFileA2] demoSigner) demoFileA.name
        = some (prepareFile demoFileA2 demoSigner) := by
  decide

/-- C5 (amended): for every file in the input list, `prepareFiles`
creates one data item whose payload is the file's bytes, signed with
the ephemeral signer, carrying exactly one `Content-Type` tag with the
file's MIME type; the resulting map associates with the file's name the
data item of the *last* input file bearing that name (which is the
file's own item whenever no later file shares its name). -/
theorem prepareFiles_spec_amended (files : List File) (s : ArweaveSigner) (f : File)
    (h : f ∈ files) :
    (prepareFile f s).data = .bytes f.data ∧
    (prepareFile f s).tags = [{ name := "Content-Type", value := f.type }] ∧
    (prepareFile f s).signed = true ∧
    (prepareFile f s).id
      = itemSigId s (.bytes f.data) [{ name := "Content-Type", value := f.type }] ∧
    jsLookup (prepareFiles files s) f.name
      = (files.reverse.find? (fun g => g.name = f.name)).map (fun g => prepareFile g s) ∧
    (files.reverse.find? (fun g => g.name = f.name)).isSome = true := by
  refine ⟨rfl, rfl, rfl, rfl, jsLookup_prepareFiles files s f.name, ?_⟩
  simp only [List.find?_isSome, List.mem_reverse, decide_eq_true_eq]
  exact ⟨f, h, rfl⟩

/-- Witness for C5 (amended): the second sample file, whose name is
unique in the list, is associated with its own data item. -/
theorem prepareFiles_spec_amended_witness :
    (prepareFile demoFileB demoSigner).data = .bytes demoFileB.data ∧
    (prepareFile demoFileB demoSigner).tags
      = [{ name := "Content-Type", value := demoFileB.type }] ∧
    (prepareFile demoFileB demoSigner).signed = true ∧
    (prepareFile demoFileB demoSigner).id
      = itemSigId demoSigner (.bytes demoFileB.data)
          [{ name := "Content-Type", value := demoFileB.type }] ∧
    jsLookup (prepareFiles [demoFileA, demoFileB] demoSigner) demoFileB.name
      = (([demoFileA, demoFileB] : List File).reverse.find?
            (fun g => g.name = demoFileB.name)).map (fun g => prepareFile g demoSigner) ∧
    (([demoFileA, demoFileB] : List File).reverse.find?
        (fun g => g.name = demoFileB.name)).isSome = true :=
  prepareFiles_spec_amended [demoFileA, demoFileB] demoSigner demoFileB (by decide)

/-- C8: when two or more input files share a name, the map built by
`prepareFiles` keeps only the last such file's data item for that name,
the bundle contains strictly fewer file items than there are input
files (the manifest item being the one extra bundle item), and the
manifest maps each name — in particular a shared one — to the item
identifier of the last input file bearing it. -/
theorem prepareFiles_duplicate_names (files : List File) (s : ArweaveSigner)
    (h : ¬ (files.map File.name).Nodup) :
    (prepareFiles files s).length < files.length ∧
    (bundleItems (prepareFiles files s) s).items.length
      = (prepareFiles files s).length + 1 ∧
    ∀ name, name ∈ files.map File.name →
      jsLookup (prepareFiles files s) name
        = (files.reverse.find? (fun g => g.name = name)).map (fun g => prepareFile g s) ∧
      jsLookup (generateManifest (pathMapOf (prepareFiles files s))).paths name
        = (files.reverse.find? (fun g => g.name = name)).map
            (fun g => (prepareFile g s).id) := by
  refine ⟨?_, ?_, ?_⟩
  · unfold prepareFiles
    rw [length_jsMapOfList]
    have hkeys : (files.map (fun f => (f.name, prepareFile f s))).map Prod.fst
        = files.map File.name := by
      rw [List.map_map]
      rfl
    rw [hkeys]
    have hlt := toFinset_card_lt_of_not_nodup h
    simpa [List.length_map] using hlt
  · rw [bundleItems_items]
    simp [jsValues]
  · intro name _
    refine ⟨jsLookup_prepareFiles files s name, ?_⟩
    show jsLookup (pathMapOf (prepareFiles files s)) name = _
    rw [pathMapOf_of_nodup (nodup_jsKeys_prepareFiles files s), jsLookup_map_id,
      jsLookup_prepareFiles, Option.map_map]
    rfl

/-- Witness for C8: with the two same-named sample files the map has a
single entry and the manifest points the shared name at the second
file's item identifier. -/
theorem prepareFiles_duplicate_names_witness :
    (prepareFiles [demoFileA, demoFileA2] demoSigner).length
        < ([demoFileA, demoFileA2] : List File).length ∧
    jsLookup (generateManifest
        (pathMapOf (prepareFiles [demoFileA, demoFileA2] demoSigner))).paths "a.txt"
      = some (prepareFile demoFileA2 demoSigner).id := by
  have hmain := prepareFiles_duplicate_names [demoFileA, demoFileA2] demoSigner (by decide)
  refine ⟨hmain.1, ?_⟩
  rw [(hmain.2.2 "a.txt" (by decide)).2]
  decide
